import Mathlib

/-!
Verification of the `add_getters.py` text patcher.

The script reads one hard-coded Java source file, applies three
regular-expression substitutions (adding getters/setters to two request
DTO classes and replacing the body of `ParkingLotStatus`), writes the
result back, and prints a fixed confirmation line.

The embedding below models text as `List Char`.  Each of the three
regex patterns is deterministic (every `\s*` is followed by a literal
that starts with a non-whitespace character, and `[^}]*` is followed by
the brace it excludes), so each pattern is embedded as a total matcher
function, and `re.sub` is embedded as a leftmost, non-overlapping scan
that restarts after each replacement.
-/

namespace AddGetters

/-- The closing-brace character. -/
def rbrace : Char := Char.ofNat 125

/-- The opening-brace character. -/
def lbrace : Char := Char.ofNat 123

/-- Python `\s` on `str` patterns: ASCII whitespace plus the Unicode
whitespace code points recognised by `str.isspace`. -/
def isSpace (c : Char) : Bool :=
  let n := c.toNat
  n = 32 || n = 9 || n = 10 || n = 13 || n = 11 || n = 12 ||
  (28 ≤ n && n ≤ 31) || n = 133 || n = 160 || n = 5760 ||
  (8192 ≤ n && n ≤ 8202) || n = 8232 || n = 8233 || n = 8239 || n = 8287 || n = 12288

/-- Literal head of the first pattern: `public static class ExitVehicleRequest {`. -/
def exitLit : List Char := ("public static class ExitVehicleRequest \x7b").data

/-- The single field declaration required by the first pattern. -/
def exitFld : List Char := ("private String ticketNumber;").data

/-- Whitespace that the replacement templates of operations 1 and 2 put
before each inserted method (a newline and eight spaces). -/
def insWs : List Char := ("\n        ").data

/-- Tail of operation 1's replacement template after the inserted whitespace:
a getter, a setter and the re-indented closing brace. -/
def exitInsCore : List Char :=
  ("public String getTicketNumber() \x7b return ticketNumber; \x7d\n        public void setTicketNumber(String ticketNumber) \x7b this.ticketNumber = ticketNumber; \x7d\n    \x7d").data

/-- Everything operation 1's template appends after the captured group `\1`. -/
def exitIns : List Char := insWs ++ exitInsCore

/-- Literal head of the second pattern: `public static class ReserveSpotRequest {`. -/
def reserveLit : List Char := ("public static class ReserveSpotRequest \x7b").data

/-- First field declaration required by the second pattern. -/
def reserveFld1 : List Char := ("private String spotNumber;").data

/-- Second field declaration required by the second pattern. -/
def reserveFld2 : List Char := ("private int durationMinutes;").data

/-- Tail of operation 2's replacement template after the inserted whitespace:
two getters, two setters and the re-indented closing brace. -/
def reserveInsCore : List Char :=
  ("public String getSpotNumber() \x7b return spotNumber; \x7d\n        public int getDurationMinutes() \x7b return durationMinutes; \x7d\n        public void setSpotNumber(String spotNumber) \x7b this.spotNumber = spotNumber; \x7d\n        public void setDurationMinutes(int durationMinutes) \x7b this.durationMinutes = durationMinutes; \x7d\n    \x7d").data

/-- Everything operation 2's template appends after the captured group `\1`. -/
def reserveIns : List Char := insWs ++ reserveInsCore

/-- Literal head of the third pattern: `public static class ParkingLotStatus {`. -/
def statusLit : List Char := ("public static class ParkingLotStatus \x7b").data

/-- The fixed hard-coded replacement body of operation 3. -/
def statusBody : List Char :=
  ("public static class ParkingLotStatus \x7b\n        private Map<ParkingSpotType, Long> availableSpots;\n        private double occupancyRate;\n        private int activeTickets;\n        \n        public ParkingLotStatus(Map<ParkingSpotType, Long> availableSpots, double occupancyRate, int activeTickets) \x7b\n            this.availableSpots = availableSpots;\n            this.occupancyRate = occupancyRate;\n            this.activeTickets = activeTickets;\n        \x7d\n        \n        public Map<ParkingSpotType, Long> getAvailableSpots() \x7b return availableSpots; \x7d\n        public double getOccupancyRate() \x7b return occupancyRate; \x7d\n        public int getActiveTickets() \x7b return activeTickets; \x7d\n    \x7d").data

/-- Consume a literal from the front of the text: `some rest` when the text
starts with `lit` followed by `rest`, `none` otherwise. -/
def dropLit : List Char → List Char → Option (List Char)
  | [], s => some s
  | _ :: _, [] => none
  | l :: ls, c :: cs => if l = c then dropLit ls cs else none

/-- Anchored match of pattern 1:
`(public static class ExitVehicleRequest \{\s*private String ticketNumber;\s*)\}`.
Returns the captured group and the rest after the closing brace.  The
pattern is deterministic because each greedy `\s*` is followed by a
literal starting with a non-whitespace character. -/
def matchExit (s : List Char) : Option (List Char × List Char) :=
  match dropLit exitLit s with
  | none => none
  | some r1 =>
    match dropLit exitFld (r1.dropWhile isSpace) with
    | none => none
    | some r3 =>
      match r3.dropWhile isSpace with
      | [] => none
      | c :: rest =>
        if c = rbrace then
          some (exitLit ++ r1.takeWhile isSpace ++ exitFld ++ r3.takeWhile isSpace, rest)
        else none

/-- Anchored match of pattern 2:
`(public static class ReserveSpotRequest \{\s*private String spotNumber;\s*private int durationMinutes;\s*)\}`. -/
def matchReserve (s : List Char) : Option (List Char × List Char) :=
  match dropLit reserveLit s with
  | none => none
  | some r1 =>
    match dropLit reserveFld1 (r1.dropWhile isSpace) with
    | none => none
    | some r3 =>
      match dropLit reserveFld2 (r3.dropWhile isSpace) with
      | none => none
      | some r5 =>
        match r5.dropWhile isSpace with
        | [] => none
        | c :: rest =>
          if c = rbrace then
            some (reserveLit ++ r1.takeWhile isSpace ++ reserveFld1 ++
                    r3.takeWhile isSpace ++ reserveFld2 ++ r5.takeWhile isSpace, rest)
          else none

/-- Anchored match of pattern 3:
`public static class ParkingLotStatus \{[^}]*\}`.  The greedy `[^}]*`
followed by `\}` deterministically extends to the first closing brace. -/
def matchStatus (s : List Char) : Option (List Char × List Char) :=
  match dropLit statusLit s with
  | none => none
  | some r1 =>
    match r1.dropWhile (fun c => c ≠ rbrace) with
    | [] => none
    | c :: rest =>
      if c = rbrace then
        some (statusLit ++ r1.takeWhile (fun c => c ≠ rbrace), rest)
      else none

/-- Leftmost non-overlapping substitution scan, the semantics of `re.sub`:
try the matcher at each position; on a match emit the replacement and
resume after the match, otherwise keep the character and move on.  The
fuel argument bounds the number of scanned positions. -/
def subFuel (m : List Char → Option (List Char × List Char))
    (rep : List Char → List Char) : Nat → List Char → List Char
  | 0, s => s
  | _ + 1, [] => []
  | n + 1, c :: cs =>
    match m (c :: cs) with
    | some p => rep p.1 ++ subFuel m rep n p.2
    | none => c :: subFuel m rep n cs

/-- `re.sub` over the whole text: the text's length is enough fuel. -/
def subAll (m : List Char → Option (List Char × List Char))
    (rep : List Char → List Char) (s : List Char) : List Char :=
  subFuel m rep s.length s

/-- Operation 1: add getter and setter to `ExitVehicleRequest`. -/
def op1 (s : List Char) : List Char := subAll matchExit (fun g => g ++ exitIns) s

/-- Operation 2: add getters and setters to `ReserveSpotRequest`. -/
def op2 (s : List Char) : List Char := subAll matchReserve (fun g => g ++ reserveIns) s

/-- Operation 3: replace the matched `ParkingLotStatus` span by the fixed body. -/
def op3 (s : List Char) : List Char := subAll matchStatus (fun _ => statusBody) s

/-- The whole transformation applied between read and write. -/
def patch (s : List Char) : List Char := op3 (op2 (op1 s))

/-- The hard-coded target path. -/
def controller_file : List Char :=
  ("src/main/java/com/lld/parkinglot/controller/ParkingLotController.java").data

/-- The fixed confirmation line. -/
def confirmMsg : List Char := ("Added getters to controller DTO classes").data

/-- Observable outcome of one run: the final file system (a map from paths
to contents), the lines printed to standard output, and whether the
process finished successfully. -/
structure RunOutcome where
  fs : List Char → Option (List Char)
  stdout : List (List Char)
  ok : Bool

/-- The whole program: read the hard-coded file (a missing file is the
propagated, uncaught read error: nothing printed, unsuccessful exit),
apply the three substitutions, write the result back to the same path,
and print the confirmation line. -/
def runPatcher (fs : List Char → Option (List Char)) : RunOutcome :=
  match fs controller_file with
  | none => ⟨fs, [], false⟩
  | some content =>
    ⟨fun p => if p = controller_file then some (patch content) else fs p,
      [confirmMsg], true⟩

/-- A matcher is well formed when every successful match splits the text
into the captured part, the closing brace that every pattern ends with,
and the rest. -/
def MatchSpec (m : List Char → Option (List Char × List Char)) : Prop :=
  ∀ s g r, m s = some (g, r) → s = g ++ rbrace :: r

/-- Character-wise disagreement within the common prefix of two lists:
witnesses that the first list can never be consumed from the front of
the second, whatever follows it. -/
def clashes : List Char → List Char → Bool
  | [], _ => false
  | _ :: _, [] => false
  | a :: as, b :: bs => a ≠ b || clashes as bs

/-- None of the three patterns matches at the front of the text. -/
def NoHit (s : List Char) : Prop :=
  matchExit s = none ∧ matchReserve s = none ∧ matchStatus s = none

instance (s : List Char) : Decidable (NoHit s) := by
  unfold NoHit
  infer_instance

/-- A minimal input for operation 3: a `ParkingLotStatus` class whose
body holds no brace, so the whole class is the matched span. -/
def statusSmall : List Char := statusLit ++ (" int x; ").data ++ [rbrace]

theorem dropLit_eq_append : ∀ (l s r : List Char), dropLit l s = some r → s = l ++ r := by
  intro l
  induction l with
  | nil => intro s r h; simp [dropLit] at h; simp [h]
  | cons a as ih =>
    intro s r h
    cases s with
    | nil => simp [dropLit] at h
    | cons c cs =>
      simp only [dropLit] at h
      by_cases hac : a = c
      · subst hac
        simp only [if_pos rfl] at h
        have := ih cs r h
        simp [this]
      · rw [if_neg hac] at h; exact absurd h (by simp)

theorem dropLit_self : ∀ (l r : List Char), dropLit l (l ++ r) = some r := by
  intro l
  induction l with
  | nil => intro r; simp [dropLit]
  | cons a as ih => intro r; simp [dropLit, ih]

theorem takeWhile_app (p : Char → Bool) :
    ∀ (w r : List Char), (∀ c ∈ w, p c = true) → r.takeWhile p = [] →
      (w ++ r).takeWhile p = w ∧ (w ++ r).dropWhile p = r := by
  intro w
  induction w with
  | nil =>
    intro r _ hr
    refine ⟨by simpa using hr, ?_⟩
    cases r with
    | nil => simp
    | cons c cs =>
      simp only [List.takeWhile_cons] at hr
      by_cases hp : p c = true
      · simp [hp] at hr
      · simp only [Bool.not_eq_true] at hp
        simp [List.dropWhile_cons, hp]
  | cons a as ih =>
    intro r hw hr
    have ha := hw a (by simp)
    have h2 := ih r (fun c hc => hw c (by simp [hc])) hr
    exact ⟨by simp [List.takeWhile_cons, ha, h2.1], by simp [List.dropWhile_cons, ha, h2.2]⟩

theorem takeWhile_app_eq_nil (p : Char → Bool) (a b : List Char)
    (h : a.takeWhile p = []) (ha : a ≠ []) : (a ++ b).takeWhile p = [] := by
  cases a with
  | nil => exact absurd rfl ha
  | cons c cs =>
    simp only [List.takeWhile_cons] at h ⊢
    by_cases hp : p c = true
    · simp [hp] at h
    · simp only [Bool.not_eq_true] at hp
      simp [hp]

theorem dropWhile_ws_append (p : Char → Bool) :
    ∀ (w r : List Char), (∀ c ∈ w, p c = true) → (w ++ r).dropWhile p = r.dropWhile p := by
  intro w
  induction w with
  | nil => intro r _; simp
  | cons a as ih =>
    intro r hw
    have ha := hw a (by simp)
    simp [List.dropWhile_cons, ha, ih r (fun c hc => hw c (by simp [hc]))]

theorem dropWhile_of_takeWhile_nil (p : Char → Bool) (r : List Char)
    (h : r.takeWhile p = []) : r.dropWhile p = r := by
  cases r with
  | nil => simp
  | cons c cs =>
    simp only [List.takeWhile_cons] at h
    by_cases hp : p c = true
    · simp [hp] at h
    · simp only [Bool.not_eq_true] at hp
      simp [List.dropWhile_cons, hp]

theorem matchExit_spec : MatchSpec matchExit := by
  intro s g r h
  unfold matchExit at h
  cases h1 : dropLit exitLit s with
  | none => simp only [h1] at h; exact Option.noConfusion h
  | some r1 =>
    simp only [h1] at h
    cases h2 : dropLit exitFld (r1.dropWhile isSpace) with
    | none => simp only [h2] at h; exact Option.noConfusion h
    | some r3 =>
      simp only [h2] at h
      cases h3 : r3.dropWhile isSpace with
      | nil => simp only [h3] at h; exact Option.noConfusion h
      | cons c rest =>
        simp only [h3] at h
        by_cases hc : c = rbrace
        · rw [if_pos hc] at h
          have hg : exitLit ++ r1.takeWhile isSpace ++ exitFld ++ r3.takeWhile isSpace = g ∧
              rest = r := by
            have := Option.some.inj h
            exact ⟨congrArg Prod.fst this, congrArg Prod.snd this⟩
          have hs1 := dropLit_eq_append _ _ _ h1
          have hs2 := dropLit_eq_append _ _ _ h2
          have hr1 : r1 = r1.takeWhile isSpace ++ r1.dropWhile isSpace :=
            (List.takeWhile_append_dropWhile ..).symm
          have hr3 : r3 = r3.takeWhile isSpace ++ r3.dropWhile isSpace :=
            (List.takeWhile_append_dropWhile ..).symm
          rw [hs1, hr1, hs2, hr3, h3, hc, ← hg.1, ← hg.2]
          simp [List.append_assoc]
        · rw [if_neg hc] at h; exact absurd h (by simp)

theorem matchReserve_spec : MatchSpec matchReserve := by
  intro s g r h
  unfold matchReserve at h
  cases h1 : dropLit reserveLit s with
  | none => simp only [h1] at h; exact Option.noConfusion h
  | some r1 =>
    simp only [h1] at h
    cases h2 : dropLit reserveFld1 (r1.dropWhile isSpace) with
    | none => simp only [h2] at h; exact Option.noConfusion h
    | some r3 =>
      simp only [h2] at h
      cases h3 : dropLit reserveFld2 (r3.dropWhile isSpace) with
      | none => simp only [h3] at h; exact Option.noConfusion h
      | some r5 =>
        simp only [h3] at h
        cases h4 : r5.dropWhile isSpace with
        | nil => simp only [h4] at h; exact Option.noConfusion h
        | cons c rest =>
          simp only [h4] at h
          by_cases hc : c = rbrace
          · rw [if_pos hc] at h
            have hg := Option.some.inj h
            rw [Prod.mk.injEq] at hg
            have hs1 := dropLit_eq_append _ _ _ h1
            have hs2 := dropLit_eq_append _ _ _ h2
            have hs3 := dropLit_eq_append _ _ _ h3
            have hr1 : r1 = r1.takeWhile isSpace ++ r1.dropWhile isSpace :=
              (List.takeWhile_append_dropWhile ..).symm
            have hr3 : r3 = r3.takeWhile isSpace ++ r3.dropWhile isSpace :=
              (List.takeWhile_append_dropWhile ..).symm
            have hr5 : r5 = r5.takeWhile isSpace ++ r5.dropWhile isSpace :=
              (List.takeWhile_append_dropWhile ..).symm
            rw [hs1, hr1, hs2, hr3, hs3, hr5, h4, hc, ← hg.1, ← hg.2]
            simp [List.append_assoc]
          · rw [if_neg hc] at h; exact absurd h (by simp)

theorem matchStatus_spec : MatchSpec matchStatus := by
  intro s g r h
  unfold matchStatus at h
  cases h1 : dropLit statusLit s with
  | none => simp only [h1] at h; exact Option.noConfusion h
  | some r1 =>
    simp only [h1] at h
    cases h3 : r1.dropWhile (fun c => c ≠ rbrace) with
    | nil => simp only [h3] at h; exact Option.noConfusion h
    | cons c rest =>
      simp only [h3] at h
      by_cases hc : c = rbrace
      · rw [if_pos hc] at h
        have hg := Option.some.inj h
        rw [Prod.mk.injEq] at hg
        have hs1 := dropLit_eq_append _ _ _ h1
        have hr1 : r1 = r1.takeWhile (fun c => c ≠ rbrace) ++
            r1.dropWhile (fun c => c ≠ rbrace) :=
          (List.takeWhile_append_dropWhile ..).symm
        rw [hs1, hr1, h3, hc, ← hg.1, ← hg.2]
        simp [List.append_assoc]
      · rw [if_neg hc] at h; exact absurd h (by simp)

theorem matchSpec_length {m : List Char → Option (List Char × List Char)}
    (hm : MatchSpec m) {s g r : List Char} (h : m s = some (g, r)) :
    r.length < s.length := by
  have := congrArg List.length (hm s g r h)
  simp at this
  omega

theorem subFuel_congr (m : List Char → Option (List Char × List Char))
    (rep : List Char → List Char) (hm : MatchSpec m) :
    ∀ (a b : Nat) (s : List Char), s.length ≤ a → a ≤ b →
      subFuel m rep a s = subFuel m rep b s := by
  intro a
  induction a with
  | zero =>
    intro b s hs _
    have hnil : s = [] := List.eq_nil_of_length_eq_zero (Nat.le_zero.mp hs)
    subst hnil
    cases b <;> rfl
  | succ n ih =>
    intro b s hs hab
    cases b with
    | zero => omega
    | succ b2 =>
      cases s with
      | nil => rfl
      | cons c cs =>
        cases hmc : m (c :: cs) with
        | none =>
          have hl : cs.length ≤ n := by
            simpa using Nat.le_of_succ_le_succ hs
          simp only [subFuel, hmc]
          rw [ih b2 cs hl (Nat.le_of_succ_le_succ hab)]
        | some p =>
          have hl : p.2.length ≤ n := by
            have := matchSpec_length hm hmc
            omega
          simp only [subFuel, hmc]
          rw [ih b2 p.2 hl (Nat.le_of_succ_le_succ hab)]

theorem subAll_cons_match (m : List Char → Option (List Char × List Char))
    (rep : List Char → List Char) (hm : MatchSpec m) (c : Char) (cs g r : List Char)
    (h : m (c :: cs) = some (g, r)) :
    subAll m rep (c :: cs) = rep g ++ subAll m rep r := by
  have hl : r.length ≤ cs.length := by
    have := matchSpec_length hm h
    simp at this
    omega
  unfold subAll
  simp only [List.length_cons, subFuel, h]
  rw [← subFuel_congr m rep hm r.length cs.length r le_rfl hl]

theorem subAll_cons_nomatch (m : List Char → Option (List Char × List Char))
    (rep : List Char → List Char) (c : Char) (cs : List Char) (h : m (c :: cs) = none) :
    subAll m rep (c :: cs) = c :: subAll m rep cs := by
  unfold subAll
  simp only [List.length_cons, subFuel, h]

theorem subAll_id (m : List Char → Option (List Char × List Char))
    (rep : List Char → List Char) :
    ∀ (s : List Char), (∀ i < s.length, m (s.drop i) = none) → subAll m rep s = s := by
  intro s
  induction s with
  | nil => intro _; rfl
  | cons c cs ih =>
    intro h
    have h0 : m (c :: cs) = none := by simpa using h 0 (by simp)
    rw [subAll_cons_nomatch m rep c cs h0, ih]
    intro i hi
    simpa using h (i + 1) (by simpa using Nat.succ_lt_succ hi)

theorem subAll_first (m : List Char → Option (List Char × List Char))
    (rep : List Char → List Char) (hm : MatchSpec m) :
    ∀ (pre rest g r : List Char),
      (∀ i < pre.length, m ((pre ++ rest).drop i) = none) →
      m rest = some (g, r) →
      subAll m rep (pre ++ rest) = pre ++ rep g ++ subAll m rep r := by
  intro pre
  induction pre with
  | nil =>
    intro rest g r _ hmr
    cases rest with
    | nil =>
      have := congrArg List.length (hm _ _ _ hmr)
      simp at this
      omega
    | cons c cs => simpa using subAll_cons_match m rep hm c cs g r hmr
  | cons a as ih =>
    intro rest g r hp hmr
    have h0 : m (a :: (as ++ rest)) = none := by simpa using hp 0 (by simp)
    rw [List.cons_append, subAll_cons_nomatch m rep _ _ h0,
      ih rest g r (fun i hi => by simpa using hp (i + 1) (by simpa using Nat.succ_lt_succ hi)) hmr]
    simp

theorem takeWhile_nil_cons (p : Char → Bool) (c : Char) (cs : List Char)
    (h : p c = false) : (c :: cs).takeWhile p = [] := by
  simp [List.takeWhile_cons, h]

theorem matchExit_at (w1 w2 post : List Char)
    (hw1 : ∀ c ∈ w1, isSpace c = true) (hw2 : ∀ c ∈ w2, isSpace c = true) :
    matchExit (exitLit ++ w1 ++ exitFld ++ w2 ++ rbrace :: post) =
      some (exitLit ++ w1 ++ exitFld ++ w2, post) := by
  have hfld : (exitFld ++ (w2 ++ rbrace :: post)).takeWhile isSpace = [] :=
    takeWhile_app_eq_nil isSpace exitFld _ (by decide) (by decide)
  have hbr : (rbrace :: post).takeWhile isSpace = [] :=
    takeWhile_nil_cons isSpace rbrace post (by decide)
  have h1 := takeWhile_app isSpace w1 (exitFld ++ (w2 ++ rbrace :: post)) hw1 hfld
  have h2 := takeWhile_app isSpace w2 (rbrace :: post) hw2 hbr
  simp only [matchExit, List.append_assoc, dropLit_self, h1.1, h1.2, h2.1, h2.2]
  simp

theorem matchReserve_at (w1 w2 w3 post : List Char)
    (hw1 : ∀ c ∈ w1, isSpace c = true) (hw2 : ∀ c ∈ w2, isSpace c = true)
    (hw3 : ∀ c ∈ w3, isSpace c = true) :
    matchReserve (reserveLit ++ w1 ++ reserveFld1 ++ w2 ++ reserveFld2 ++ w3 ++ rbrace :: post) =
      some (reserveLit ++ w1 ++ reserveFld1 ++ w2 ++ reserveFld2 ++ w3, post) := by
  have hf1 : (reserveFld1 ++ (w2 ++ (reserveFld2 ++ (w3 ++ rbrace :: post)))).takeWhile isSpace = [] :=
    takeWhile_app_eq_nil isSpace reserveFld1 _ (by decide) (by decide)
  have hf2 : (reserveFld2 ++ (w3 ++ rbrace :: post)).takeWhile isSpace = [] :=
    takeWhile_app_eq_nil isSpace reserveFld2 _ (by decide) (by decide)
  have hbr : (rbrace :: post).takeWhile isSpace = [] :=
    takeWhile_nil_cons isSpace rbrace post (by decide)
  have h1 := takeWhile_app isSpace w1 (reserveFld1 ++ (w2 ++ (reserveFld2 ++ (w3 ++ rbrace :: post)))) hw1 hf1
  have h2 := takeWhile_app isSpace w2 (reserveFld2 ++ (w3 ++ rbrace :: post)) hw2 hf2
  have h3 := takeWhile_app isSpace w3 (rbrace :: post) hw3 hbr
  simp only [matchReserve, List.append_assoc, dropLit_self, h1.1, h1.2, h2.1, h2.2, h3.1, h3.2]
  simp

theorem matchStatus_at (body post : List Char) (hb : ∀ c ∈ body, c ≠ rbrace) :
    matchStatus (statusLit ++ body ++ rbrace :: post) = some (statusLit ++ body, post) := by
  have hb2 : ∀ c ∈ body, (fun c => decide (c ≠ rbrace)) c = true := by
    intro c hc
    simpa using hb c hc
  have hbr : (rbrace :: post).takeWhile (fun c => decide (c ≠ rbrace)) = [] :=
    takeWhile_nil_cons _ rbrace post (by simp)
  have h1 := takeWhile_app (fun c => decide (c ≠ rbrace)) body (rbrace :: post) hb2 hbr
  simp only [matchStatus, List.append_assoc, dropLit_self, h1.1, h1.2]
  simp

theorem clashes_dropLit : ∀ (l s : List Char), clashes l s = true →
    ∀ X, dropLit l (s ++ X) = none := by
  intro l
  induction l with
  | nil => intro s h X; simp [clashes] at h
  | cons a as ih =>
    intro s h X
    cases s with
    | nil => simp [clashes] at h
    | cons b bs =>
      simp only [clashes, Bool.or_eq_true, decide_eq_true_eq] at h
      simp only [List.cons_append, dropLit]
      cases h with
      | inl hne => rw [if_neg hne]
      | inr hcl =>
        by_cases hab : a = b
        · rw [if_pos hab]; exact ih bs hcl X
        · rw [if_neg hab]

theorem dropLit_none_head (a : Char) (l : List Char) (c : Char) (cs : List Char)
    (h : ¬ a = c) : dropLit (a :: l) (c :: cs) = none := by
  simp [dropLit, h]

theorem exitLit_cons : exitLit = 'p' :: exitLit.tail := rfl

theorem reserveLit_cons : reserveLit = 'p' :: reserveLit.tail := rfl

theorem statusLit_cons : statusLit = 'p' :: statusLit.tail := rfl

theorem matchExit_none_head (c : Char) (cs : List Char) (h : ¬ ('p' = c)) :
    matchExit (c :: cs) = none := by
  unfold matchExit
  rw [exitLit_cons, dropLit_none_head _ _ _ _ h]

theorem matchReserve_none_head (c : Char) (cs : List Char) (h : ¬ ('p' = c)) :
    matchReserve (c :: cs) = none := by
  unfold matchReserve
  rw [reserveLit_cons, dropLit_none_head _ _ _ _ h]

theorem matchStatus_none_head (c : Char) (cs : List Char) (h : ¬ ('p' = c)) :
    matchStatus (c :: cs) = none := by
  unfold matchStatus
  rw [statusLit_cons, dropLit_none_head _ _ _ _ h]

theorem matchExit_none_clash (s X : List Char) (h : clashes exitLit s = true) :
    matchExit (s ++ X) = none := by
  unfold matchExit
  rw [clashes_dropLit _ _ h X]

theorem matchReserve_none_clash (s X : List Char) (h : clashes reserveLit s = true) :
    matchReserve (s ++ X) = none := by
  unfold matchReserve
  rw [clashes_dropLit _ _ h X]

theorem matchStatus_none_clash (s X : List Char) (h : clashes statusLit s = true) :
    matchStatus (s ++ X) = none := by
  unfold matchStatus
  rw [clashes_dropLit _ _ h X]

theorem forall_drop_append (P : List Char → Prop) (a b : List Char)
    (ha : ∀ i < a.length, P (a.drop i ++ b)) (hb : ∀ i < b.length, P (b.drop i)) :
    ∀ i < (a ++ b).length, P ((a ++ b).drop i) := by
  intro i hi
  rw [List.drop_append_eq_append_drop]
  by_cases hia : i < a.length
  · have h0 : i - a.length = 0 := by omega
    rw [h0, List.drop_zero]
    exact ha i hia
  · push_neg at hia
    rw [List.drop_eq_nil_of_le hia, List.nil_append]
    apply hb
    simp only [List.length_append] at hi
    omega

theorem exitLit_suffix_clashes : ∀ i < exitLit.length, 0 < i →
    (clashes exitLit (exitLit.drop i) = true ∧ clashes reserveLit (exitLit.drop i) = true ∧
      clashes statusLit (exitLit.drop i) = true) := by decide

theorem reserveLit_suffix_clashes : ∀ i < reserveLit.length, 0 < i →
    (clashes exitLit (reserveLit.drop i) = true ∧ clashes reserveLit (reserveLit.drop i) = true ∧
      clashes statusLit (reserveLit.drop i) = true) := by decide

theorem exitFld_suffix_clashes : ∀ i < exitFld.length,
    (clashes exitLit (exitFld.drop i) = true ∧ clashes reserveLit (exitFld.drop i) = true ∧
      clashes statusLit (exitFld.drop i) = true) := by decide

theorem reserveFld1_suffix_clashes : ∀ i < reserveFld1.length,
    (clashes exitLit (reserveFld1.drop i) = true ∧ clashes reserveLit (reserveFld1.drop i) = true ∧
      clashes statusLit (reserveFld1.drop i) = true) := by decide

theorem reserveFld2_suffix_clashes : ∀ i < reserveFld2.length,
    (clashes exitLit (reserveFld2.drop i) = true ∧ clashes reserveLit (reserveFld2.drop i) = true ∧
      clashes statusLit (reserveFld2.drop i) = true) := by decide

theorem insWs_suffix_clashes : ∀ i < insWs.length,
    (clashes exitLit (insWs.drop i) = true ∧ clashes reserveLit (insWs.drop i) = true ∧
      clashes statusLit (insWs.drop i) = true) := by decide

set_option maxRecDepth 100000 in
theorem exitInsCore_suffix_clashes : ∀ i < exitInsCore.length,
    (clashes exitLit (exitInsCore.drop i) = true ∧ clashes reserveLit (exitInsCore.drop i) = true ∧
      clashes statusLit (exitInsCore.drop i) = true) := by decide

set_option maxRecDepth 100000 in
theorem reserveInsCore_suffix_clashes : ∀ i < reserveInsCore.length,
    (clashes exitLit (reserveInsCore.drop i) = true ∧ clashes reserveLit (reserveInsCore.drop i) = true ∧
      clashes statusLit (reserveInsCore.drop i) = true) := by decide

theorem noHit_clash (s X : List Char)
    (h1 : clashes exitLit s = true) (h2 : clashes reserveLit s = true)
    (h3 : clashes statusLit s = true) : NoHit (s ++ X) :=
  ⟨matchExit_none_clash s X h1, matchReserve_none_clash s X h2, matchStatus_none_clash s X h3⟩

theorem noHit_head (c : Char) (cs : List Char) (h : ¬ ('p' = c)) : NoHit (c :: cs) :=
  ⟨matchExit_none_head c cs h, matchReserve_none_head c cs h, matchStatus_none_head c cs h⟩

theorem isSpace_ne_p (c : Char) (h : isSpace c = true) : ¬ ('p' = c) := by
  intro he
  rw [← he] at h
  exact absurd h (by decide)

theorem noHit_ws_seg (w : List Char) (hw : ∀ c ∈ w, isSpace c = true) (X : List Char) :
    ∀ i < w.length, NoHit (w.drop i ++ X) := by
  intro i hi
  rw [List.drop_eq_getElem_cons hi, List.cons_append]
  exact noHit_head _ _ (isSpace_ne_p _ (hw _ (List.getElem_mem hi)))

theorem noHit_clash_seg (a : List Char)
    (h : ∀ i < a.length, (clashes exitLit (a.drop i) = true ∧
      clashes reserveLit (a.drop i) = true ∧ clashes statusLit (a.drop i) = true))
    (X : List Char) : ∀ i < a.length, NoHit (a.drop i ++ X) := by
  intro i hi
  exact noHit_clash _ X (h i hi).1 (h i hi).2.1 (h i hi).2.2

theorem matchExit_block_none (w1 w2 post : List Char)
    (hw1 : ∀ c ∈ w1, isSpace c = true) (hw2 : ∀ c ∈ w2, isSpace c = true) :
    matchExit (exitLit ++ (w1 ++ (exitFld ++ (w2 ++ (exitIns ++ post))))) = none := by
  have hfld : (exitFld ++ (w2 ++ (exitIns ++ post))).takeWhile isSpace = [] :=
    takeWhile_app_eq_nil isSpace exitFld _ (by decide) (by decide)
  have hd1 : (w1 ++ (exitFld ++ (w2 ++ (exitIns ++ post)))).dropWhile isSpace
      = exitFld ++ (w2 ++ (exitIns ++ post)) := by
    rw [dropWhile_ws_append isSpace w1 _ hw1]
    exact dropWhile_of_takeWhile_nil _ _ hfld
  have hassoc : exitIns ++ post = insWs ++ (exitInsCore ++ post) :=
    List.append_assoc insWs exitInsCore post
  have hpcons : exitInsCore ++ post = 'p' :: (exitInsCore.tail ++ post) := rfl
  have hd2 : (w2 ++ (exitIns ++ post)).dropWhile isSpace = 'p' :: (exitInsCore.tail ++ post) := by
    rw [dropWhile_ws_append isSpace w2 _ hw2, hassoc,
      dropWhile_ws_append isSpace insWs _ (by decide), hpcons]
    simp [List.dropWhile_cons, (by decide : isSpace 'p' = false)]
  simp only [matchExit, dropLit_self]
  simp only [hd1, dropLit_self]
  simp only [hd2]
  rw [if_neg (by decide : ¬ ('p' = rbrace))]

theorem matchReserve_block_none (w1 w2 w3 post : List Char)
    (hw1 : ∀ c ∈ w1, isSpace c = true) (hw2 : ∀ c ∈ w2, isSpace c = true)
    (hw3 : ∀ c ∈ w3, isSpace c = true) :
    matchReserve (reserveLit ++ (w1 ++ (reserveFld1 ++ (w2 ++ (reserveFld2 ++ (w3 ++ (reserveIns ++ post))))))) = none := by
  have hf1 : (reserveFld1 ++ (w2 ++ (reserveFld2 ++ (w3 ++ (reserveIns ++ post))))).takeWhile isSpace = [] :=
    takeWhile_app_eq_nil isSpace reserveFld1 _ (by decide) (by decide)
  have hf2 : (reserveFld2 ++ (w3 ++ (reserveIns ++ post))).takeWhile isSpace = [] :=
    takeWhile_app_eq_nil isSpace reserveFld2 _ (by decide) (by decide)
  have hd1 : (w1 ++ (reserveFld1 ++ (w2 ++ (reserveFld2 ++ (w3 ++ (reserveIns ++ post)))))).dropWhile isSpace
      = reserveFld1 ++ (w2 ++ (reserveFld2 ++ (w3 ++ (reserveIns ++ post)))) := by
    rw [dropWhile_ws_append isSpace w1 _ hw1]
    exact dropWhile_of_takeWhile_nil _ _ hf1
  have hd2 : (w2 ++ (reserveFld2 ++ (w3 ++ (reserveIns ++ post)))).dropWhile isSpace
      = reserveFld2 ++ (w3 ++ (reserveIns ++ post)) := by
    rw [dropWhile_ws_append isSpace w2 _ hw2]
    exact dropWhile_of_takeWhile_nil _ _ hf2
  have hassoc : reserveIns ++ post = insWs ++ (reserveInsCore ++ post) :=
    List.append_assoc insWs reserveInsCore post
  have hpcons : reserveInsCore ++ post = 'p' :: (reserveInsCore.tail ++ post) := rfl
  have hd3 : (w3 ++ (reserveIns ++ post)).dropWhile isSpace = 'p' :: (reserveInsCore.tail ++ post) := by
    rw [dropWhile_ws_append isSpace w3 _ hw3, hassoc,
      dropWhile_ws_append isSpace insWs _ (by decide), hpcons]
    simp [List.dropWhile_cons, (by decide : isSpace 'p' = false)]
  simp only [matchReserve, dropLit_self]
  simp only [hd1, dropLit_self]
  simp only [hd2, dropLit_self]
  simp only [hd3]
  rw [if_neg (by decide : ¬ ('p' = rbrace))]

theorem noHit_block1 (w1 w2 post : List Char)
    (hw1 : ∀ c ∈ w1, isSpace c = true) (hw2 : ∀ c ∈ w2, isSpace c = true)
    (hpost : ∀ i < post.length, NoHit (post.drop i)) :
    ∀ i < (exitLit ++ (w1 ++ (exitFld ++ (w2 ++ (exitIns ++ post))))).length,
      NoHit ((exitLit ++ (w1 ++ (exitFld ++ (w2 ++ (exitIns ++ post))))).drop i) := by
  apply forall_drop_append
  · intro i hi
    by_cases h0 : i = 0
    · subst h0
      simp only [List.drop_zero]
      exact ⟨matchExit_block_none w1 w2 post hw1 hw2,
        matchReserve_none_clash exitLit _ (by decide),
        matchStatus_none_clash exitLit _ (by decide)⟩
    · have ht := exitLit_suffix_clashes i hi (Nat.pos_of_ne_zero h0)
      exact noHit_clash _ _ ht.1 ht.2.1 ht.2.2
  · apply forall_drop_append
    · exact noHit_ws_seg w1 hw1 _
    · apply forall_drop_append
      · exact noHit_clash_seg exitFld exitFld_suffix_clashes _
      · apply forall_drop_append
        · exact noHit_ws_seg w2 hw2 _
        · have hsplit : exitIns ++ post = insWs ++ (exitInsCore ++ post) := by
            simp [exitIns, List.append_assoc]
          rw [hsplit]
          apply forall_drop_append
          · exact noHit_clash_seg insWs insWs_suffix_clashes _
          · apply forall_drop_append
            · exact noHit_clash_seg exitInsCore exitInsCore_suffix_clashes _
            · exact hpost

theorem noHit_block2 (w1 w2 w3 post : List Char)
    (hw1 : ∀ c ∈ w1, isSpace c = true) (hw2 : ∀ c ∈ w2, isSpace c = true)
    (hw3 : ∀ c ∈ w3, isSpace c = true)
    (hpost : ∀ i < post.length, NoHit (post.drop i)) :
    ∀ i < (reserveLit ++ (w1 ++ (reserveFld1 ++ (w2 ++ (reserveFld2 ++ (w3 ++ (reserveIns ++ post))))))).length,
      NoHit ((reserveLit ++ (w1 ++ (reserveFld1 ++ (w2 ++ (reserveFld2 ++ (w3 ++ (reserveIns ++ post))))))).drop i) := by
  apply forall_drop_append
  · intro i hi
    by_cases h0 : i = 0
    · subst h0
      simp only [List.drop_zero]
      exact ⟨matchExit_none_clash reserveLit _ (by decide),
        matchReserve_block_none w1 w2 w3 post hw1 hw2 hw3,
        matchStatus_none_clash reserveLit _ (by decide)⟩
    · have ht := reserveLit_suffix_clashes i hi (Nat.pos_of_ne_zero h0)
      exact noHit_clash _ _ ht.1 ht.2.1 ht.2.2
  · apply forall_drop_append
    · exact noHit_ws_seg w1 hw1 _
    · apply forall_drop_append
      · exact noHit_clash_seg reserveFld1 reserveFld1_suffix_clashes _
      · apply forall_drop_append
        · exact noHit_ws_seg w2 hw2 _
        · apply forall_drop_append
          · exact noHit_clash_seg reserveFld2 reserveFld2_suffix_clashes _
          · apply forall_drop_append
            · exact noHit_ws_seg w3 hw3 _
            · have hsplit : reserveIns ++ post = insWs ++ (reserveInsCore ++ post) := by
                simp [reserveIns, List.append_assoc]
              rw [hsplit]
              apply forall_drop_append
              · exact noHit_clash_seg insWs insWs_suffix_clashes _
              · apply forall_drop_append
                · exact noHit_clash_seg reserveInsCore reserveInsCore_suffix_clashes _
                · exact hpost

theorem patch_id (s : List Char) (h : ∀ i < s.length, NoHit (s.drop i)) : patch s = s := by
  unfold patch op1 op2 op3
  rw [subAll_id _ _ s (fun i hi => (h i hi).1),
    subAll_id _ _ s (fun i hi => (h i hi).2.1),
    subAll_id _ _ s (fun i hi => (h i hi).2.2)]

/-- Claim C1: on a text holding the single-field `ExitVehicleRequest`
block (with the pattern occurring nowhere else), operation 1 emits the
getter and the setter of `ticketNumber` immediately before the block's
original closing brace (the tail `exitIns` of the replacement template
ends with that brace) and leaves all other text unchanged; and on any
text where the pattern is absent at every position, operation 1 is the
identity and raises no error. -/
theorem op1_single_field_getter_setter :
    (∀ pre w1 w2 post : List Char,
      (∀ c ∈ w1, isSpace c = true) → (∀ c ∈ w2, isSpace c = true) →
      (∀ i < pre.length,
        matchExit ((pre ++ (exitLit ++ w1 ++ exitFld ++ w2 ++ rbrace :: post)).drop i) = none) →
      (∀ i < post.length, matchExit (post.drop i) = none) →
      op1 (pre ++ (exitLit ++ w1 ++ exitFld ++ w2 ++ rbrace :: post)) =
        pre ++ (exitLit ++ w1 ++ exitFld ++ w2) ++ exitIns ++ post) ∧
    (∀ s : List Char, (∀ i < s.length, matchExit (s.drop i) = none) → op1 s = s) := by
  constructor
  · intro pre w1 w2 post hw1 hw2 hpre hpost
    unfold op1
    rw [subAll_first _ _ matchExit_spec pre (exitLit ++ w1 ++ exitFld ++ w2 ++ rbrace :: post)
        (exitLit ++ w1 ++ exitFld ++ w2) post hpre (matchExit_at w1 w2 post hw1 hw2),
      subAll_id _ _ post hpost]
    simp [List.append_assoc]
  · intro s h
    exact subAll_id _ _ s h

/-- Witness for claim C1 at concrete inputs: a surrounding class plus the
minimal block gets the getter and setter; a pattern-free text is kept. -/
theorem op1_single_field_getter_setter_witness :
    op1 ((("class A \x7b ").data) ++
        (exitLit ++ (("\n  ").data) ++ exitFld ++ (("\n").data) ++ rbrace :: ((" \x7d").data))) =
      (("class A \x7b ").data) ++ (exitLit ++ (("\n  ").data) ++ exitFld ++ (("\n").data)) ++
        exitIns ++ ((" \x7d").data) ∧
    op1 (("no requests in sight").data) = ("no requests in sight").data :=
  ⟨op1_single_field_getter_setter.1 (("class A \x7b ").data) (("\n  ").data) (("\n").data)
      ((" \x7d").data) (by decide) (by decide) (by decide) (by decide),
    op1_single_field_getter_setter.2 (("no requests in sight").data) (by decide)⟩

/-- Claim C2: on a text holding the two-field `ReserveSpotRequest` block
(with the pattern occurring nowhere else), operation 2 emits the two
getters then the two setters, in field declaration order, before the
block's original closing brace, keeping the two field declarations and
all other text; and on any text where the pattern is absent at every
position, operation 2 is the identity and raises no error. -/
theorem op2_two_fields_getters_setters :
    (∀ pre w1 w2 w3 post : List Char,
      (∀ c ∈ w1, isSpace c = true) → (∀ c ∈ w2, isSpace c = true) →
      (∀ c ∈ w3, isSpace c = true) →
      (∀ i < pre.length,
        matchReserve ((pre ++ (reserveLit ++ w1 ++ reserveFld1 ++ w2 ++ reserveFld2 ++ w3 ++
          rbrace :: post)).drop i) = none) →
      (∀ i < post.length, matchReserve (post.drop i) = none) →
      op2 (pre ++ (reserveLit ++ w1 ++ reserveFld1 ++ w2 ++ reserveFld2 ++ w3 ++ rbrace :: post)) =
        pre ++ (reserveLit ++ w1 ++ reserveFld1 ++ w2 ++ reserveFld2 ++ w3) ++ reserveIns ++ post) ∧
    (∀ s : List Char, (∀ i < s.length, matchReserve (s.drop i) = none) → op2 s = s) := by
  constructor
  · intro pre w1 w2 w3 post hw1 hw2 hw3 hpre hpost
    unfold op2
    rw [subAll_first _ _ matchReserve_spec pre
        (reserveLit ++ w1 ++ reserveFld1 ++ w2 ++ reserveFld2 ++ w3 ++ rbrace :: post)
        (reserveLit ++ w1 ++ reserveFld1 ++ w2 ++ reserveFld2 ++ w3) post hpre
        (matchReserve_at w1 w2 w3 post hw1 hw2 hw3),
      subAll_id _ _ post hpost]
    simp [List.append_assoc]
  · intro s h
    exact subAll_id _ _ s h

/-- Witness for claim C2 at concrete inputs. -/
theorem op2_two_fields_getters_setters_witness :
    op2 ((("x ").data) ++ (reserveLit ++ (("\n ").data) ++ reserveFld1 ++ (("  ").data) ++
        reserveFld2 ++ (("\n").data) ++ rbrace :: ((" y").data))) =
      (("x ").data) ++ (reserveLit ++ (("\n ").data) ++ reserveFld1 ++ (("  ").data) ++
        reserveFld2 ++ (("\n").data)) ++ reserveIns ++ ((" y").data) ∧
    op2 (("spotNumber alone; no block").data) = ("spotNumber alone; no block").data :=
  ⟨op2_two_fields_getters_setters.1 (("x ").data) (("\n ").data) (("  ").data) (("\n").data)
      ((" y").data) (by decide) (by decide) (by decide) (by decide) (by decide),
    op2_two_fields_getters_setters.2 (("spotNumber alone; no block").data) (by decide)⟩

/-- Claim C3: for any text holding a `ParkingLotStatus` span (the header
followed by a brace-free stretch and its first closing brace), with the
pattern occurring nowhere else, operation 3 replaces the whole matched
span by the fixed hard-coded body `statusBody`, whatever the original
span contained; none of the span's own content reaches the output. -/
theorem op3_replaces_matched_span :
    ∀ pre body post : List Char,
      (∀ c ∈ body, c ≠ rbrace) →
      (∀ i < pre.length,
        matchStatus ((pre ++ (statusLit ++ body ++ rbrace :: post)).drop i) = none) →
      (∀ i < post.length, matchStatus (post.drop i) = none) →
      op3 (pre ++ (statusLit ++ body ++ rbrace :: post)) = pre ++ statusBody ++ post := by
  intro pre body post hb hpre hpost
  unfold op3
  rw [subAll_first _ _ matchStatus_spec pre (statusLit ++ body ++ rbrace :: post)
      (statusLit ++ body) post hpre (matchStatus_at body post hb),
    subAll_id _ _ post hpost]

/-- Witness for claim C3 at a concrete input: the old body ` int a; ` is
discarded and the fixed body appears in its place. -/
theorem op3_replaces_matched_span_witness :
    op3 ((("x ").data) ++ (statusLit ++ ((" int a; ").data) ++ rbrace :: ((" tail").data))) =
      (("x ").data) ++ statusBody ++ ((" tail").data) :=
  op3_replaces_matched_span (("x ").data) ((" int a; ").data) ((" tail").data)
    (by decide) (by decide) (by decide)

/-- Claim C4: the span matched by operation 3's pattern ends exactly at
the first closing brace after the header: for every brace-free `body`
and every continuation `post`, the matcher returns the rest `post`
untouched — even when that first brace closes a nested inner block, so
the remainder of the class survives. -/
theorem matchStatus_stops_at_first_closing_brace :
    ∀ body post : List Char, (∀ c ∈ body, c ≠ rbrace) →
      matchStatus (statusLit ++ body ++ rbrace :: post) = some (statusLit ++ body, post) :=
  matchStatus_at

/-- Witness for claim C4: the body opens a nested `if` block, and the
match stops at the brace closing that inner block, leaving the rest of
the class (including its real closing brace) as the remainder. -/
theorem matchStatus_stops_at_first_closing_brace_witness :
    matchStatus (statusLit ++ ((" int a; if (full) \x7b log(); ").data) ++
        rbrace :: ((" int b; \x7d").data)) =
      some (statusLit ++ ((" int a; if (full) \x7b log(); ").data), (" int b; \x7d").data) :=
  matchStatus_stops_at_first_closing_brace ((" int a; if (full) \x7b log(); ").data)
    ((" int b; \x7d").data) (by decide)

/-- Claim C9: each operation substitutes every non-overlapping occurrence
of its pattern in one run, not only the first: two disjoint occurrences
(separated by match-free stretches) are both rewritten. -/
theorem ops_replace_all_occurrences :
    (∀ p mid q w1 w2 v1 v2 : List Char,
      (∀ c ∈ w1, isSpace c = true) → (∀ c ∈ w2, isSpace c = true) →
      (∀ c ∈ v1, isSpace c = true) → (∀ c ∈ v2, isSpace c = true) →
      (∀ i < p.length,
        matchExit ((p ++ (exitLit ++ w1 ++ exitFld ++ w2 ++
          rbrace :: (mid ++ (exitLit ++ v1 ++ exitFld ++ v2 ++ rbrace :: q)))).drop i) = none) →
      (∀ i < mid.length,
        matchExit ((mid ++ (exitLit ++ v1 ++ exitFld ++ v2 ++ rbrace :: q)).drop i) = none) →
      (∀ i < q.length, matchExit (q.drop i) = none) →
      op1 (p ++ (exitLit ++ w1 ++ exitFld ++ w2 ++
          rbrace :: (mid ++ (exitLit ++ v1 ++ exitFld ++ v2 ++ rbrace :: q)))) =
        p ++ (exitLit ++ w1 ++ exitFld ++ w2) ++ exitIns ++ mid ++
          (exitLit ++ v1 ++ exitFld ++ v2) ++ exitIns ++ q) ∧
    (∀ p mid q w1 w2 w3 v1 v2 v3 : List Char,
      (∀ c ∈ w1, isSpace c = true) → (∀ c ∈ w2, isSpace c = true) →
      (∀ c ∈ w3, isSpace c = true) →
      (∀ c ∈ v1, isSpace c = true) → (∀ c ∈ v2, isSpace c = true) →
      (∀ c ∈ v3, isSpace c = true) →
      (∀ i < p.length,
        matchReserve ((p ++ (reserveLit ++ w1 ++ reserveFld1 ++ w2 ++ reserveFld2 ++ w3 ++
          rbrace :: (mid ++ (reserveLit ++ v1 ++ reserveFld1 ++ v2 ++ reserveFld2 ++ v3 ++
            rbrace :: q)))).drop i) = none) →
      (∀ i < mid.length,
        matchReserve ((mid ++ (reserveLit ++ v1 ++ reserveFld1 ++ v2 ++ reserveFld2 ++ v3 ++
          rbrace :: q)).drop i) = none) →
      (∀ i < q.length, matchReserve (q.drop i) = none) →
      op2 (p ++ (reserveLit ++ w1 ++ reserveFld1 ++ w2 ++ reserveFld2 ++ w3 ++
          rbrace :: (mid ++ (reserveLit ++ v1 ++ reserveFld1 ++ v2 ++ reserveFld2 ++ v3 ++
            rbrace :: q)))) =
        p ++ (reserveLit ++ w1 ++ reserveFld1 ++ w2 ++ reserveFld2 ++ w3) ++ reserveIns ++ mid ++
          (reserveLit ++ v1 ++ reserveFld1 ++ v2 ++ reserveFld2 ++ v3) ++ reserveIns ++ q) ∧
    (∀ p mid q b1 b2 : List Char,
      (∀ c ∈ b1, c ≠ rbrace) → (∀ c ∈ b2, c ≠ rbrace) →
      (∀ i < p.length,
        matchStatus ((p ++ (statusLit ++ b1 ++
          rbrace :: (mid ++ (statusLit ++ b2 ++ rbrace :: q)))).drop i) = none) →
      (∀ i < mid.length,
        matchStatus ((mid ++ (statusLit ++ b2 ++ rbrace :: q)).drop i) = none) →
      (∀ i < q.length, matchStatus (q.drop i) = none) →
      op3 (p ++ (statusLit ++ b1 ++ rbrace :: (mid ++ (statusLit ++ b2 ++ rbrace :: q)))) =
        p ++ statusBody ++ mid ++ statusBody ++ q) := by
  refine ⟨?_, ?_, ?_⟩
  · intro p mid q w1 w2 v1 v2 hw1 hw2 hv1 hv2 hp hmid hq
    unfold op1
    rw [subAll_first _ _ matchExit_spec p
        (exitLit ++ w1 ++ exitFld ++ w2 ++
          rbrace :: (mid ++ (exitLit ++ v1 ++ exitFld ++ v2 ++ rbrace :: q)))
        (exitLit ++ w1 ++ exitFld ++ w2)
        (mid ++ (exitLit ++ v1 ++ exitFld ++ v2 ++ rbrace :: q)) hp
        (matchExit_at w1 w2 _ hw1 hw2),
      subAll_first _ _ matchExit_spec mid
        (exitLit ++ v1 ++ exitFld ++ v2 ++ rbrace :: q)
        (exitLit ++ v1 ++ exitFld ++ v2) q hmid (matchExit_at v1 v2 q hv1 hv2),
      subAll_id _ _ q hq]
    simp [List.append_assoc]
  · intro p mid q w1 w2 w3 v1 v2 v3 hw1 hw2 hw3 hv1 hv2 hv3 hp hmid hq
    unfold op2
    rw [subAll_first _ _ matchReserve_spec p
        (reserveLit ++ w1 ++ reserveFld1 ++ w2 ++ reserveFld2 ++ w3 ++
          rbrace :: (mid ++ (reserveLit ++ v1 ++ reserveFld1 ++ v2 ++ reserveFld2 ++ v3 ++
            rbrace :: q)))
        (reserveLit ++ w1 ++ reserveFld1 ++ w2 ++ reserveFld2 ++ w3)
        (mid ++ (reserveLit ++ v1 ++ reserveFld1 ++ v2 ++ reserveFld2 ++ v3 ++ rbrace :: q)) hp
        (matchReserve_at w1 w2 w3 _ hw1 hw2 hw3),
      subAll_first _ _ matchReserve_spec mid
        (reserveLit ++ v1 ++ reserveFld1 ++ v2 ++ reserveFld2 ++ v3 ++ rbrace :: q)
        (reserveLit ++ v1 ++ reserveFld1 ++ v2 ++ reserveFld2 ++ v3) q hmid
        (matchReserve_at v1 v2 v3 q hv1 hv2 hv3),
      subAll_id _ _ q hq]
    simp [List.append_assoc]
  · intro p mid q b1 b2 hb1 hb2 hp hmid hq
    unfold op3
    rw [subAll_first _ _ matchStatus_spec p
        (statusLit ++ b1 ++ rbrace :: (mid ++ (statusLit ++ b2 ++ rbrace :: q)))
        (statusLit ++ b1) (mid ++ (statusLit ++ b2 ++ rbrace :: q)) hp
        (matchStatus_at b1 _ hb1),
      subAll_first _ _ matchStatus_spec mid (statusLit ++ b2 ++ rbrace :: q)
        (statusLit ++ b2) q hmid (matchStatus_at b2 q hb2),
      subAll_id _ _ q hq]
    simp [List.append_assoc]

/-- Witness for claim C9: two occurrences of each pattern in one text are
both rewritten in a single run of the operation. -/
theorem ops_replace_all_occurrences_witness :
    op1 ((("a ").data) ++ (exitLit ++ ((" ").data) ++ exitFld ++ ((" ").data) ++
        rbrace :: (((" b ").data) ++ (exitLit ++ (("  ").data) ++ exitFld ++ (("\n").data) ++
          rbrace :: (("!").data))))) =
      (("a ").data) ++ (exitLit ++ ((" ").data) ++ exitFld ++ ((" ").data)) ++ exitIns ++
        ((" b ").data) ++ (exitLit ++ (("  ").data) ++ exitFld ++ (("\n").data)) ++ exitIns ++
        (("!").data) ∧
    op2 ((("a ").data) ++ (reserveLit ++ ((" ").data) ++ reserveFld1 ++ ((" ").data) ++
        reserveFld2 ++ ((" ").data) ++
        rbrace :: (((" b ").data) ++ (reserveLit ++ ((" ").data) ++ reserveFld1 ++ ((" ").data) ++
          reserveFld2 ++ ((" ").data) ++ rbrace :: (("!").data))))) =
      (("a ").data) ++ (reserveLit ++ ((" ").data) ++ reserveFld1 ++ ((" ").data) ++
        reserveFld2 ++ ((" ").data)) ++ reserveIns ++
        ((" b ").data) ++ (reserveLit ++ ((" ").data) ++ reserveFld1 ++ ((" ").data) ++
        reserveFld2 ++ ((" ").data)) ++ reserveIns ++ (("!").data) ∧
    op3 ((("a ").data) ++ (statusLit ++ ((" x ").data) ++
        rbrace :: (((" b ").data) ++ (statusLit ++ ((" y ").data) ++ rbrace :: (("!").data))))) =
      (("a ").data) ++ statusBody ++ ((" b ").data) ++ statusBody ++ (("!").data) :=
  ⟨ops_replace_all_occurrences.1 (("a ").data) ((" b ").data) (("!").data)
      ((" ").data) ((" ").data) (("  ").data) (("\n").data)
      (by decide) (by decide) (by decide) (by decide) (by decide) (by decide) (by decide),
    ops_replace_all_occurrences.2.1 (("a ").data) ((" b ").data) (("!").data)
      ((" ").data) ((" ").data) ((" ").data) ((" ").data) ((" ").data) ((" ").data)
      (by decide) (by decide) (by decide) (by decide) (by decide) (by decide)
      (by decide) (by decide) (by decide),
    ops_replace_all_occurrences.2.2 (("a ").data) ((" b ").data) (("!").data)
      ((" x ").data) ((" y ").data)
      (by decide) (by decide) (by decide) (by decide) (by decide)⟩

/-- Claim C6: when none of the three patterns matches anywhere in the
file content, the run still succeeds: the file is rewritten with
byte-identical content and the confirmation line is printed — a missing
pattern is never an error. -/
theorem patcher_no_pattern_identity :
    ∀ (fs : List Char → Option (List Char)) (s : List Char),
      fs controller_file = some s →
      (∀ i < s.length, NoHit (s.drop i)) →
      (runPatcher fs).fs controller_file = some s ∧
        (runPatcher fs).stdout = [confirmMsg] ∧ (runPatcher fs).ok = true := by
  intro fs s hr hnm
  unfold runPatcher
  simp [hr, patch_id s hnm]

/-- Witness for claim C6 on a concrete one-file file system whose content
matches no pattern. -/
theorem patcher_no_pattern_identity_witness :
    (runPatcher (fun p => if p = controller_file then some (("plain java text").data) else none)).fs
        controller_file = some (("plain java text").data) ∧
      (runPatcher (fun p => if p = controller_file then some (("plain java text").data) else none)).stdout
        = [confirmMsg] ∧
      (runPatcher (fun p => if p = controller_file then some (("plain java text").data) else none)).ok
        = true :=
  patcher_no_pattern_identity _ (("plain java text").data) (by simp) (by decide)

/-- Claim C7: when the hard-coded path holds no readable file, the run
fails (the read error propagates), nothing is printed — in particular no
confirmation line — and no path of the file system is changed. -/
theorem patcher_missing_file_error :
    ∀ (fs : List Char → Option (List Char)) (p : List Char),
      fs controller_file = none →
      (runPatcher fs).ok = false ∧ (runPatcher fs).stdout = [] ∧ (runPatcher fs).fs p = fs p := by
  intro fs p h
  unfold runPatcher
  simp [h]

/-- Witness for claim C7 on the empty file system. -/
theorem patcher_missing_file_error_witness :
    (runPatcher (fun _ => none)).ok = false ∧ (runPatcher (fun _ => none)).stdout = [] ∧
      (runPatcher (fun _ => none)).fs controller_file = (fun _ => none) controller_file :=
  patcher_missing_file_error (fun _ => none) controller_file rfl

/-- Claim C8: every successful run prints exactly the one fixed
confirmation line and changes no path other than the hard-coded target
file. -/
theorem patcher_success_output_and_frame :
    ∀ (fs : List Char → Option (List Char)) (p : List Char),
      (runPatcher fs).ok = true → p ≠ controller_file →
      (runPatcher fs).stdout = [confirmMsg] ∧ (runPatcher fs).fs p = fs p := by
  intro fs p hok hp
  cases hr : fs controller_file with
  | none =>
    unfold runPatcher at hok
    simp only [hr] at hok
    exact absurd hok Bool.false_ne_true
  | some content =>
    unfold runPatcher
    simp [hr, hp]

/-- Witness for claim C8 on a concrete file system with an empty target
file, observed at a different path. -/
theorem patcher_success_output_and_frame_witness :
    (runPatcher (fun p => if p = controller_file then some [] else none)).stdout = [confirmMsg] ∧
      (runPatcher (fun p => if p = controller_file then some [] else none)).fs (("other.txt").data) =
        (fun p => if p = controller_file then some [] else none) (("other.txt").data) :=
  patcher_success_output_and_frame _ (("other.txt").data) rfl (by decide)

/-- Claim C10: the write happens only after the read and the three
substitutions, so a failing read leaves the whole file system exactly as
it was and the run ends unsuccessfully. -/
theorem patcher_read_fail_preserves_file :
    ∀ fs : List Char → Option (List Char),
      fs controller_file = none →
      (runPatcher fs).fs = fs ∧ (runPatcher fs).ok = false := by
  intro fs h
  unfold runPatcher
  simp [h]

/-- Witness for claim C10 on the empty file system. -/
theorem patcher_read_fail_preserves_file_witness :
    (runPatcher (fun _ => none)).fs = (fun _ => (none : Option (List Char))) ∧
      (runPatcher (fun _ => none)).ok = false :=
  patcher_read_fail_preserves_file (fun _ => none) rfl

set_option maxRecDepth 1000000 in
theorem statusSmall_not_idempotent :
    patch (patch statusSmall) ≠ patch statusSmall := by decide

/-- Counterexample to claim C5 as stated: for rule 3, running the whole
patcher again on the output of a successful first application changes
the text once more — the fixed replacement body itself matches the
`ParkingLotStatus` pattern up to its constructor's closing brace. -/
theorem patch_rerun_changes_status_output :
    patch (patch statusSmall) ≠ patch statusSmall := statusSmall_not_idempotent

/-- Claim C5 as amended: for rules 1 and 2 a second run of the whole
patcher on text already holding the output block of a successful first
application (with no pattern matching elsewhere) leaves the text
unchanged — the field-only patterns no longer match a class that has
methods; for rule 3 this fails: a second run rewrites the text again. -/
theorem patch_second_run_rules :
    (∀ pre w1 w2 post : List Char,
      (∀ c ∈ w1, isSpace c = true) → (∀ c ∈ w2, isSpace c = true) →
      (∀ i < pre.length,
        NoHit (pre.drop i ++ (exitLit ++ w1 ++ exitFld ++ w2 ++ exitIns ++ post))) →
      (∀ i < post.length, NoHit (post.drop i)) →
      patch (pre ++ (exitLit ++ w1 ++ exitFld ++ w2 ++ exitIns ++ post)) =
        pre ++ (exitLit ++ w1 ++ exitFld ++ w2 ++ exitIns ++ post)) ∧
    (∀ pre w1 w2 w3 post : List Char,
      (∀ c ∈ w1, isSpace c = true) → (∀ c ∈ w2, isSpace c = true) →
      (∀ c ∈ w3, isSpace c = true) →
      (∀ i < pre.length,
        NoHit (pre.drop i ++ (reserveLit ++ w1 ++ reserveFld1 ++ w2 ++ reserveFld2 ++ w3 ++
          reserveIns ++ post))) →
      (∀ i < post.length, NoHit (post.drop i)) →
      patch (pre ++ (reserveLit ++ w1 ++ reserveFld1 ++ w2 ++ reserveFld2 ++ w3 ++
          reserveIns ++ post)) =
        pre ++ (reserveLit ++ w1 ++ reserveFld1 ++ w2 ++ reserveFld2 ++ w3 ++
          reserveIns ++ post)) ∧
    patch (patch statusSmall) ≠ patch statusSmall := by
  refine ⟨?_, ?_, statusSmall_not_idempotent⟩
  · intro pre w1 w2 post hw1 hw2 hpre hpost
    have hall : ∀ i < (pre ++ (exitLit ++ (w1 ++ (exitFld ++ (w2 ++ (exitIns ++ post)))))).length,
        NoHit ((pre ++ (exitLit ++ (w1 ++ (exitFld ++ (w2 ++ (exitIns ++ post)))))).drop i) := by
      apply forall_drop_append
      · intro i hi
        simpa [List.append_assoc] using hpre i hi
      · exact noHit_block1 w1 w2 post hw1 hw2 hpost
    have hp := patch_id _ hall
    simpa [List.append_assoc] using hp
  · intro pre w1 w2 w3 post hw1 hw2 hw3 hpre hpost
    have hall : ∀ i < (pre ++ (reserveLit ++ (w1 ++ (reserveFld1 ++ (w2 ++ (reserveFld2 ++
        (w3 ++ (reserveIns ++ post)))))))).length,
        NoHit ((pre ++ (reserveLit ++ (w1 ++ (reserveFld1 ++ (w2 ++ (reserveFld2 ++
          (w3 ++ (reserveIns ++ post)))))))).drop i) := by
      apply forall_drop_append
      · intro i hi
        simpa [List.append_assoc] using hpre i hi
      · exact noHit_block2 w1 w2 w3 post hw1 hw2 hw3 hpost
    have hp := patch_id _ hall
    simpa [List.append_assoc] using hp

/-- Witness for the amended claim C5: a fully patched rule-1 block and a
fully patched rule-2 block survive a second run of the patcher
unchanged, while the rule-3 output does not. -/
theorem patch_second_run_rules_witness :
    patch (([] : List Char) ++ (exitLit ++ insWs ++ exitFld ++ (("\n    ").data) ++
        exitIns ++ ([] : List Char))) =
      ([] : List Char) ++ (exitLit ++ insWs ++ exitFld ++ (("\n    ").data) ++
        exitIns ++ ([] : List Char)) ∧
    patch (([] : List Char) ++ (reserveLit ++ insWs ++ reserveFld1 ++ insWs ++ reserveFld2 ++
        (("\n    ").data) ++ reserveIns ++ ([] : List Char))) =
      ([] : List Char) ++ (reserveLit ++ insWs ++ reserveFld1 ++ insWs ++ reserveFld2 ++
        (("\n    ").data) ++ reserveIns ++ ([] : List Char)) ∧
    patch (patch statusSmall) ≠ patch statusSmall :=
  ⟨patch_second_run_rules.1 [] insWs (("\n    ").data) [] (by decide) (by decide)
      (by intro i hi; simp at hi) (by intro i hi; simp at hi),
    patch_second_run_rules.2.1 [] insWs insWs (("\n    ").data) [] (by decide) (by decide)
      (by decide) (by intro i hi; simp at hi) (by intro i hi; simp at hi),
    statusSmall_not_idempotent⟩

end AddGetters
